import Mathlib

/-
Verification development for the hserve static-file server.

The definitions below are a shallow embedding of the Go sources:
  internal/app/hserve/handler.go  (PathGuard predicates, middleware, handler)
  internal/app/hserve/tls.go      (TLS loading glue)
  internal/tls/policy.go          (TLS policy; certificate generation package)
  server lifecycle / preflight sources

Paths are Unix paths modelled as Lean strings.  The Go standard library
functions used by the sources (strings.HasPrefix, strings.Split,
strings.Contains, strings.TrimPrefix, path/filepath Clean, Join, Rel, Abs)
are modelled below by structurally recursive Lean functions over the
character list of a string, so that every definition evaluates by kernel
reduction on concrete inputs.  filepath.EvalSymlinks and the filesystem
are modelled as explicit function parameters.
-/

/-- Characters of a string. -/
def strChars (s : String) : List Char := s.data

/-- Build a string from characters. -/
def strOfChars (cs : List Char) : String := String.mk cs

/-- Model of Go strings.HasPrefix: the first string starts with the second. -/
def strStartsWith (s pre : String) : Bool := pre.data.isPrefixOf s.data

/-- Does the character list contain the needle as a contiguous run?  Model of
the search underlying Go strings.Contains. -/
def containsSeq (needle : List Char) : List Char → Bool
  | [] => needle.isEmpty
  | c :: t => needle.isPrefixOf (c :: t) || containsSeq needle t

/-- Model of Go strings.Contains. -/
def strContains (s sub : String) : Bool := containsSeq sub.data s.data

/-- Model of Go strings.TrimPrefix(s, "/"). -/
def trimLeadingSlash (s : String) : String :=
  if strStartsWith s "/" then strOfChars s.data.tail else s

/-- Accumulator loop for splitting a character list at every slash. -/
def splitSlashAux : List Char → List Char → List String
  | acc, [] => [strOfChars acc.reverse]
  | acc, c :: cs =>
    if c = '/' then strOfChars acc.reverse :: splitSlashAux [] cs
    else splitSlashAux (c :: acc) cs

/-- Model of Go strings.Split(s, "/"). -/
def splitSlash (s : String) : List String := splitSlashAux [] s.data

/-- Join segments with a slash separator; inverse of splitting. -/
def joinSegs : List String → String
  | [] => ""
  | [s] => s
  | s :: rest => s ++ "/" ++ joinSegs rest

/-- Stack loop of Go path/filepath Clean (Unix): drop empty and dot
segments, resolve dotdot segments against the stack, keeping leading
dotdots only for relative paths.  The accumulator is the reversed stack. -/
def cleanLoop (rooted : Bool) : List String → List String → List String
  | acc, [] => acc.reverse
  | acc, seg :: rest =>
    if seg = "" ∨ seg = "." then cleanLoop rooted acc rest
    else if seg = ".." then
      match acc with
      | [] => if rooted then cleanLoop rooted [] rest
              else cleanLoop rooted [".."] rest
      | top :: accTail =>
        if top = ".." then cleanLoop rooted (".." :: top :: accTail) rest
        else cleanLoop rooted accTail rest
    else cleanLoop rooted (seg :: acc) rest

/-- Model of Go path/filepath Clean on Unix. -/
def filepathClean (path : String) : String :=
  if path = "" then "." else
  let rooted := strStartsWith path "/"
  let segs := cleanLoop rooted [] (splitSlash path)
  if rooted then "/" ++ joinSegs segs
  else if segs = [] then "." else joinSegs segs

/-- Model of Go path/filepath Join on two elements: empty elements are
skipped and the slash-joined rest is Cleaned. -/
def filepathJoin (a b : String) : String :=
  if a = "" then (if b = "" then "" else filepathClean b)
  else if b = "" then filepathClean a
  else filepathClean (a ++ "/" ++ b)

/-- Segment list used by the Rel computation: a cleaned absolute path is
stripped of its leading slash, the empty string becomes the empty list. -/
def relSegsOf (s : String) (slashed : Bool) : List String :=
  if slashed then
    (let r := strOfChars s.data.tail
     if r = "" then [] else splitSlash r)
  else if s = "" then [] else splitSlash s

/-- Drop the common leading segments of two segment lists. -/
def dropCommonSegs : List String → List String → List String × List String
  | [], ts => ([], ts)
  | b :: bs, [] => (b :: bs, [])
  | b :: bs, t :: ts =>
    if b = t then dropCommonSegs bs ts else (b :: bs, t :: ts)

/-- Model of Go path/filepath Rel on Unix; none models the error return. -/
def filepathRel (basepath targpath : String) : Option String :=
  let base0 := filepathClean basepath
  let targ := filepathClean targpath
  if targ = base0 then some "." else
  let base := if base0 = "." then "" else base0
  let baseSlashed := strStartsWith base "/"
  let targSlashed := strStartsWith targ "/"
  if baseSlashed ≠ targSlashed then none else
  let bs := relSegsOf base baseSlashed
  let ts := relSegsOf targ targSlashed
  let rem := dropCommonSegs bs ts
  if rem.1.head? = some ".." then none
  else if rem.1 = [] then some (joinSegs rem.2)
  else some (joinSegs (List.replicate rem.1.length ".." ++ rem.2))

/-- Model of Go path/filepath Abs with the process working directory made
explicit: an absolute path is Cleaned, a relative one joined onto cwd. -/
def filepathAbs (cwd p : String) : String :=
  if strStartsWith p "/" then filepathClean p else filepathJoin cwd p

/-
PathGuard: internal/app/hserve/handler.go.

filepath.EvalSymlinks touches the filesystem; it is modelled as an explicit
parameter returning one of three outcomes, mirroring the error cases the Go
code distinguishes.  On error Go EvalSymlinks returns the empty string
together with the error.
-/

/-- Outcome of filepath.EvalSymlinks on the full path. -/
inductive SymlinkOutcome where
  | ok (resolved : String)
  | errNotExist
  | errOther
deriving DecidableEq

/-- The resolvedPath value after the error handling in isPathSafe: on
success the resolved path; on a non-IsNotExist error the code falls back to
the original full path; on an IsNotExist error resolvedPath keeps the empty
string returned by EvalSymlinks. -/
def resolvedOf (ev : String → SymlinkOutcome) (fullPath : String) : String :=
  match ev fullPath with
  | SymlinkOutcome.ok r => r
  | SymlinkOutcome.errNotExist => ""
  | SymlinkOutcome.errOther => fullPath

/-- isPathSafe from handler.go: Clean the request path, Join it onto the
root, reject when the relative form escapes, then repeat the check on the
symlink-resolved path. -/
def isPathSafe (ev : String → SymlinkOutcome) (requestPath rootDir : String) : Bool :=
  match filepathRel rootDir (filepathJoin rootDir (filepathClean requestPath)) with
  | none => false
  | some relPath =>
    if strStartsWith relPath ".." then false
    else
      match filepathRel rootDir
          (resolvedOf ev (filepathJoin rootDir (filepathClean requestPath))) with
      | none => false
      | some relResolved => !(strStartsWith relResolved "..")

/-- isHiddenFileRequest from handler.go: a segment of the cleaned path
starting with a dot, other than the dot and dotdot pseudo-segments. -/
def isHiddenSegment (segment : String) : Bool :=
  strStartsWith segment "." && decide (segment ≠ ".") && decide (segment ≠ "..")

/-- isHiddenFileRequest from handler.go. -/
def isHiddenFileRequest (path : String) : Bool :=
  (splitSlash (filepathClean path)).any isHiddenSegment

/-- One iteration of the allow-list loop in isPathAllowed: make the entry
absolute (against the process working directory, modelled explicitly),
relativize against root, and compare; a Rel error skips the entry. -/
def entryMatches (cwd root reqPath allowedPath : String) : Bool :=
  match filepathRel root (filepathAbs cwd allowedPath) with
  | none => false
  | some relPath =>
    decide (reqPath = relPath) || strStartsWith reqPath (relPath ++ "/")

/-- isPathAllowed from handler.go.  cwd is the process working directory
consulted by filepath.Abs. -/
def isPathAllowed (cwd requestPath : String) (allowedPaths : List String)
    (root : String) : Bool :=
  if allowedPaths.isEmpty then true
  else if filepathClean requestPath = "/" ∨ filepathClean requestPath = "." then true
  else allowedPaths.any
    (entryMatches cwd root (trimLeadingSlash (filepathClean requestPath)))

/-- isRequestAllowed from handler.go: safety, then allow-list scope when
specific paths were given, then the hidden-file check. -/
def isRequestAllowed (ev : String → SymlinkOutcome) (cwd path root : String)
    (paths : List String) (hasSpecificPaths : Bool) : Bool :=
  if !(isPathSafe ev path root) then false
  else if hasSpecificPaths && !(isPathAllowed cwd path paths root) then false
  else if isHiddenFileRequest path then false
  else true

/-- Status and body of an HTTP response, the observables of handleRequest. -/
structure HttpResponse where
  status : Nat
  body : String
deriving DecidableEq

/-- The uniform denial response handleRequest writes via http.Error. -/
def forbiddenResponse : HttpResponse :=
  { status := 403, body := "Forbidden" }

/-- handleRequest from handler.go, with the wrapped file server modelled as
a function of the request path. -/
def handleRequest (ev : String → SymlinkOutcome) (cwd : String)
    (fileServer : String → HttpResponse) (path root : String)
    (paths : List String) : HttpResponse :=
  if !(isRequestAllowed ev cwd path root paths (!paths.isEmpty)) then
    forbiddenResponse
  else fileServer path

/-
RequestPipeline middleware: handler.go middleware functions and
applyMiddleware from the server lifecycle source.  A handler maps the
request observables the middleware consult to the response observables
they produce.
-/

/-- Request fields the middleware chain reads. -/
structure MwRequest where
  contentLength : Int
  acceptEncoding : String
  hasBasicAuth : Bool
  authUser : String
  authPass : String
  urlPath : String
deriving DecidableEq

/-- Response observables of the middleware chain.  gzipEncoded models the
Content-Encoding header the gzip response writer sets on the first write. -/
structure MwResponse where
  status : Nat
  body : String
  gzipEncoded : Bool
  wwwAuthenticate : Option String
deriving DecidableEq

/-- An HTTP handler in the middleware model. -/
def MwHandler : Type := MwRequest → MwResponse

/-- LimitRequestBodySize from handler.go: requests whose ContentLength
exceeds the limit get the 413 error response; others pass through (the
MaxBytesReader body wrapping is not an observable here). -/
def limitRequestBodySize (maxSize : Int) (next : MwHandler) : MwHandler :=
  fun r =>
    if r.contentLength ≤ maxSize then next r
    else { status := 413, body := "Request body too large",
           gzipEncoded := false, wwwAuthenticate := none }

/-- BasicAuthMiddleware from handler.go: skipped when both credentials are
empty; otherwise the request needs matching basic credentials (the
constant-time comparison succeeds exactly on equality), else the 401
challenge response is written. -/
def basicAuthMiddleware (username password realm : String)
    (next : MwHandler) : MwHandler :=
  fun r =>
    if username = "" ∧ password = "" then next r
    else if r.hasBasicAuth ∧ r.authUser = username ∧ r.authPass = password then
      next r
    else { status := 401, body := "Unauthorized",
           gzipEncoded := false, wwwAuthenticate := some realm }

/-- supportsGzip from handler.go. -/
def supportsGzip (r : MwRequest) : Bool := strContains r.acceptEncoding "gzip"

/-- GzipMiddleware from handler.go: when the client advertises gzip the
response is written through the gzip writer, which stamps the gzip
content-encoding; otherwise the inner handler answers untouched. -/
def gzipMiddleware (next : MwHandler) : MwHandler :=
  fun r =>
    if supportsGzip r then
      let resp := next r
      { resp with gzipEncoded := true }
    else next r

/-- The Options fields applyMiddleware consults. -/
structure Options where
  maxBodyBytes : Int
  authUser : String
  authPass : String
  authRealm : String
deriving DecidableEq

/-- The defaulted body limit: non-positive means 10 MB. -/
def effMaxBody (opt : Options) : Int :=
  if opt.maxBodyBytes ≤ 0 then 10485760 else opt.maxBodyBytes

/-- The defaulted auth realm. -/
def authRealmOf (opt : Options) : String :=
  if opt.authRealm = "" then "hserve-secure-area" else opt.authRealm

/-- applyMiddleware from the server lifecycle source: wrap with the body
limiter, then (when credentials are configured) basic auth, and wrap the
result in the gzip middleware last, so gzip is outermost at request time. -/
def applyMiddleware (handler : MwHandler) (opt : Options) : MwHandler :=
  let h1 := limitRequestBodySize (effMaxBody opt) handler
  let h2 :=
    if opt.authUser ≠ "" ∨ opt.authPass ≠ "" then
      basicAuthMiddleware opt.authUser opt.authPass (authRealmOf opt) h1
    else h1
  gzipMiddleware h2

/-- Modelled from the spec: the middleware order the specification
describes, with the body-size limiter outermost in request-processing
order, then the optional basic-authentication gate, then gzip compression
innermost around the responder.  Stated only to compare against the
applyMiddleware chain of the code. -/
def specOrderChain (handler : MwHandler) (opt : Options) : MwHandler :=
  limitRequestBodySize (effMaxBody opt)
    (if opt.authUser ≠ "" ∨ opt.authPass ≠ "" then
      basicAuthMiddleware opt.authUser opt.authPass (authRealmOf opt)
        (gzipMiddleware handler)
    else gzipMiddleware handler)

/-
CertificateAuthority: the certificate generation package (internal/tls
sources) and the preflight check of the server lifecycle.

RSA key generation draws from the entropy source; this is modelled by an
explicit stream gen of abstract keys together with a counter of draws
already consumed.  x509 certificates are modelled by the template fields
the code sets plus the issuer and signing data x509.CreateCertificate
derives from the parent template and signing key.  The filesystem is a map
from paths to PEM file contents; fallible OS operations (directory
creation, file writes) are modelled on their success path.
-/

/-- An abstract RSA key pair, identified by the entropy draw. -/
structure RSAKey where
  keyId : Nat
deriving DecidableEq

/-- The public half of a key pair. -/
def RSAKey.pub (k : RSAKey) : Nat := k.keyId

/-- The x509.Certificate template fields the code sets. -/
structure CertTemplate where
  serialNumber : Int
  subjectCommonName : String
  notBefore : Int
  notAfter : Int
  keyUsageCertSign : Bool
  keyUsageCRLSign : Bool
  keyUsageDigitalSignature : Bool
  keyUsageKeyEncipherment : Bool
  extKeyUsageServerAuth : Bool
  basicConstraintsValid : Bool
  isCA : Bool
  dnsNames : List String
  ipAddresses : List String
deriving DecidableEq

/-- time.Now().AddDate(years, 0, 0), with time as abstract instants. -/
def addYears (t : Int) (years : Int) : Int := t + years

/-- createCACertificateTemplate from the certificate generation source. -/
def createCACertificateTemplate (now : Int) : CertTemplate :=
  { serialNumber := now
    subjectCommonName := "Local HTTPS CA"
    notBefore := now
    notAfter := addYears now 10
    keyUsageCertSign := true
    keyUsageCRLSign := true
    keyUsageDigitalSignature := false
    keyUsageKeyEncipherment := false
    extKeyUsageServerAuth := false
    basicConstraintsValid := true
    isCA := true
    dnsNames := []
    ipAddresses := [] }

/-- createServerCertificateTemplate from the certificate generation
source, with parsed IP addresses kept in textual form. -/
def createServerCertificateTemplate (now : Int) : CertTemplate :=
  { serialNumber := now
    subjectCommonName := "localhost"
    notBefore := now
    notAfter := addYears now 30
    keyUsageCertSign := false
    keyUsageCRLSign := false
    keyUsageDigitalSignature := true
    keyUsageKeyEncipherment := true
    extKeyUsageServerAuth := true
    basicConstraintsValid := false
    isCA := false
    dnsNames := ["localhost", "127.0.0.1"]
    ipAddresses := ["127.0.0.1", "::1"] }

/-- A signed certificate: the template together with the issuer taken from
the parent template's subject, the embedded public key, and the public
counterpart of the key that produced the signature. -/
structure SignedCert extends CertTemplate where
  issuerCommonName : String
  certPub : Nat
  signedByPub : Nat
deriving DecidableEq

/-- createCertificate, modelling x509.CreateCertificate: the issuer comes
from the parent's subject and the signature from the signing key. -/
def createCertificate (template parent : CertTemplate) (pub : Nat)
    (priv : RSAKey) : SignedCert :=
  { template with
    issuerCommonName := parent.subjectCommonName
    certPub := pub
    signedByPub := priv.pub }

/-- generateCACertificate: the CA certificate is self-signed from its own
template. -/
def generateCACertificate (now : Int) (caKey : RSAKey) : SignedCert :=
  createCertificate (createCACertificateTemplate now)
    (createCACertificateTemplate now) caKey.pub caKey

/-- generateServerCertificate: the leaf is built from the server template,
with a freshly built CA template as parent, signed by the CA key. -/
def generateServerCertificate (now : Int) (caKey serverKey : RSAKey) : SignedCert :=
  createCertificate (createServerCertificateTemplate now)
    (createCACertificateTemplate now) serverKey.pub caKey

/-- Chain-of-trust check: the leaf's issuer matches the CA certificate's
subject, its signature verifies under the CA certificate's public key, and
the CA certificate is a certificate-signing CA. -/
def VerifiesAgainst (leaf ca : SignedCert) : Prop :=
  leaf.issuerCommonName = ca.subjectCommonName ∧
  leaf.signedByPub = ca.certPub ∧
  ca.isCA = true ∧ ca.keyUsageCertSign = true

/-- certificateData from the certificate generation source. -/
structure certificateData where
  caKey : RSAKey
  serverKey : RSAKey
  caCertDER : SignedCert
  serverCertDER : SignedCert
deriving DecidableEq

/-- createCertificateData: draw the CA key then the server key from the
entropy stream and build both certificates. -/
def createCertificateData (gen : Nat → RSAKey) (now : Int) (ctr : Nat) :
    certificateData :=
  let caKey := gen ctr
  let serverKey := gen (ctr + 1)
  { caKey := caKey
    serverKey := serverKey
    caCertDER := generateCACertificate now caKey
    serverCertDER := generateServerCertificate now caKey serverKey }

/-- Payload of a PEM file on disk. -/
inductive PemData where
  | cert (c : SignedCert)
  | rsaKey (k : RSAKey)
deriving DecidableEq

/-- A PEM file as written by writePem. -/
structure PemFile where
  blockType : String
  payload : PemData
  mode : Nat
deriving DecidableEq

/-- The filesystem as a map from paths to file contents. -/
def FS : Type := String → Option PemFile

/-- writePem: create or truncate the file at the path with the block. -/
def writePem (fs : FS) (path blockType : String) (payload : PemData)
    (mode : Nat) : FS :=
  fun q => if q = path then some { blockType := blockType, payload := payload, mode := mode } else fs q

/-- saveCertificates: CA certificate, then server certificate, then the
server private key. -/
def saveCertificates (d : certificateData) (certPath keyPath caCertPath : String)
    (fs : FS) : FS :=
  let fs1 := writePem fs caCertPath "CERTIFICATE" (PemData.cert d.caCertDER) 0o644
  let fs2 := writePem fs1 certPath "CERTIFICATE" (PemData.cert d.serverCertDER) 0o644
  writePem fs2 keyPath "RSA PRIVATE KEY" (PemData.rsaKey d.serverKey) 0o600

/-- CheckCertificateExists: os.Stat succeeds exactly when a file is
present. -/
def checkCertificateExists (fs : FS) (path : String) : Bool :=
  (fs path).isSome

/-- shouldSkipGeneration: not force, and both the server certificate and
the CA certificate exist; the key path is not consulted. -/
def shouldSkipGeneration (force : Bool) (certPath caCertPath : String)
    (fs : FS) : Bool :=
  !force && checkCertificateExists fs certPath && checkCertificateExists fs caCertPath

/-- generateAndSaveCertificates: create the data (consuming two entropy
draws) and persist the three files. -/
def generateAndSaveCertificates (gen : Nat → RSAKey) (now : Int)
    (certPath keyPath caCertPath : String) (fs : FS) (ctr : Nat) : FS × Nat :=
  (saveCertificates (createCertificateData gen now ctr) certPath keyPath caCertPath fs,
   ctr + 2)

/-- Generate from the certificate generation source: skip when the
certificates already exist and force is not set, otherwise generate and
save; returns the filesystem and the entropy counter after the call. -/
def Generate (gen : Nat → RSAKey) (now : Int)
    (certPath keyPath caCertPath : String) (force : Bool) (fs : FS)
    (ctr : Nat) : FS × Nat :=
  if shouldSkipGeneration force certPath caCertPath fs then (fs, ctr)
  else generateAndSaveCertificates gen now certPath keyPath caCertPath fs ctr

/-- Preflight failure causes of checkCertificateFiles. -/
inductive PreflightError where
  | missingCert (path : String)
  | missingKey (path : String)
deriving DecidableEq

/-- checkCertificateFiles from the preflight source: the certificate file
is checked first, then the private key file. -/
def checkCertificateFiles (certPath keyPath : String) (fs : FS) :
    Option PreflightError :=
  if (fs certPath).isNone then some (PreflightError.missingCert certPath)
  else if (fs keyPath).isNone then some (PreflightError.missingKey keyPath)
  else none

/-
Concrete fixtures used by witnesses and counterexamples.
-/

/-- An EvalSymlinks oracle for a filesystem where nothing exists. -/
def evalNotExist : String → SymlinkOutcome := fun _ => SymlinkOutcome.errNotExist

/-- An EvalSymlinks oracle for a symlink-free filesystem: every path
resolves to itself. -/
def evalId : String → SymlinkOutcome := fun p => SymlinkOutcome.ok p

/-- The file-serving handler as the middleware chain sees it. -/
def mwFileHandler : MwHandler :=
  fun _ => { status := 200, body := "ok", gzipEncoded := false, wwwAuthenticate := none }

/-- A second inner handler, used to show the responder is not consulted. -/
def mwAltHandler : MwHandler :=
  fun _ => { status := 500, body := "alt", gzipEncoded := false, wwwAuthenticate := none }

/-- A configuration with basic-auth credentials and a 100-byte body limit. -/
def optWithAuth : Options :=
  { maxBodyBytes := 100, authUser := "u", authPass := "p", authRealm := "realm" }

/-- An oversized request from a gzip-capable client without credentials. -/
def reqOversizedGzip : MwRequest :=
  { contentLength := 1000, acceptEncoding := "gzip", hasBasicAuth := false,
    authUser := "", authPass := "", urlPath := "/" }

/-- The 413 error response of the body limiter. -/
def resp413 : MwResponse :=
  { status := 413, body := "Request body too large",
    gzipEncoded := false, wwwAuthenticate := none }

/-- A disk holding the two certificates but no private key. -/
def fsCertsOnly : FS := fun q =>
  if q = "cert.pem" ∨ q = "ca.crt" then
    some ⟨"CERTIFICATE", PemData.cert (generateCACertificate 0 ⟨0⟩), 0o644⟩
  else none

/-
Helper lemmas about the string model.
-/

/-- The Boolean starts-with test agrees with the list prefix relation. -/
theorem strStartsWith_iff (s pre : String) :
    strStartsWith s pre = true ↔ pre.data <+: s.data := by
  simp [strStartsWith, List.isPrefixOf_iff_prefix]

/-- Starts-with is transitive along an intermediate string. -/
theorem strStartsWith_trans (a b c : String) (h1 : strStartsWith b a = true)
    (h2 : strStartsWith c b = true) : strStartsWith c a = true := by
  rw [strStartsWith_iff] at h1 h2 ⊢
  exact h1.trans h2

/-- Appending on the right preserves a starts-with fact. -/
theorem strStartsWith_append_right (s pre t : String)
    (h : strStartsWith s pre = true) : strStartsWith (s ++ t) pre = true := by
  rw [strStartsWith_iff] at h ⊢
  rw [String.data_append]
  exact h.trans (List.prefix_append s.data t.data)

/-- C1: every request path whose normalized join onto root is relative to
root with a leading parent-directory marker is rejected by isPathSafe, and
so is every request path whose symlink-resolved target lies outside root
(its relative form against root fails or starts with the parent marker). -/
theorem isPathSafe_rejects_escapes :
    (∀ (ev : String → SymlinkOutcome) (p root rp : String),
        filepathRel root (filepathJoin root (filepathClean p)) = some rp →
        strStartsWith rp ".." = true →
        isPathSafe ev p root = false) ∧
    (∀ (ev : String → SymlinkOutcome) (p root r : String),
        ev (filepathJoin root (filepathClean p)) = SymlinkOutcome.ok r →
        (filepathRel root r = none ∨
          ∃ rr, filepathRel root r = some rr ∧ strStartsWith rr ".." = true) →
        isPathSafe ev p root = false) := by
  constructor
  · intro ev p root rp h1 h2
    unfold isPathSafe
    rw [h1]
    simp [h2]
  · intro ev p root r h1 h2
    have hres : resolvedOf ev (filepathJoin root (filepathClean p)) = r := by
      simp [resolvedOf, h1]
    unfold isPathSafe
    rw [hres]
    rcases h2 with h2 | ⟨rr, hrr, hsw⟩
    · rw [h2]
      cases hrel : filepathRel root (filepathJoin root (filepathClean p)) with
      | none => rfl
      | some a => by_cases ha : strStartsWith a ".." = true <;> simp [ha]
    · rw [hrr]
      cases hrel : filepathRel root (filepathJoin root (filepathClean p)) with
      | none => rfl
      | some a => by_cases ha : strStartsWith a ".." = true <;> simp [ha, hsw]

/-- C1 witness: a traversal request and a symlink escape, both rejected at
concrete inputs via the main theorem. -/
theorem isPathSafe_rejects_escapes_witness :
    isPathSafe evalId "../x" "/share" = false ∧
    isPathSafe (fun _ => SymlinkOutcome.ok "/etc/passwd") "/link" "/share" = false := by
  constructor
  · exact isPathSafe_rejects_escapes.1 evalId "../x" "/share" "../x" (by decide) (by decide)
  · exact isPathSafe_rejects_escapes.2 (fun _ => SymlinkOutcome.ok "/etc/passwd") "/link"
      "/share" "/etc/passwd" (by decide) (Or.inr ⟨"../etc/passwd", by decide, by decide⟩)

/-- C3: at the failing input the claim describes, the code behaves
otherwise.  The request path misses on disk (EvalSymlinks reports
not-exist), its pre-resolution relative path is the textually safe
"missing.txt", yet isPathSafe returns false: the not-exist branch keeps the
empty string EvalSymlinks returned instead of falling back to the full
path, and the empty string cannot be relativized against an absolute root. -/
theorem isPathSafe_notexist_rejected :
    filepathRel "/share" (filepathJoin "/share" (filepathClean "/missing.txt")) =
      some "missing.txt" ∧
    strStartsWith "missing.txt" ".." = false ∧
    isPathSafe evalNotExist "/missing.txt" "/share" = false := by decide

/-- C7: isHiddenFileRequest holds exactly when some segment of the cleaned
path starts with a dot and is neither the dot nor the dotdot
pseudo-segment. -/
theorem isHiddenFileRequest_iff : ∀ p : String, isHiddenFileRequest p = true ↔
    ∃ seg, seg ∈ splitSlash (filepathClean p) ∧
      strStartsWith seg "." = true ∧ seg ≠ "." ∧ seg ≠ ".." := by
  intro p
  simp [isHiddenFileRequest, isHiddenSegment, List.any_eq_true, Bool.and_eq_true,
        decide_eq_true_eq, and_assoc]

/-- C4: isRequestAllowed is the short-circuit conjunction of the safety
check, the allow-list scope check (only when specific paths were given),
and the hidden-file check, in that nesting order; and handleRequest
answers every denied request with the single forbidden response, so two
requests denied for different reasons receive the same status 403 and the
same body. -/
theorem guard_order_and_uniform_denial :
    ∀ (ev : String → SymlinkOutcome) (cwd root : String) (paths : List String),
      (∀ (p : String) (hasSpecific : Bool),
        isRequestAllowed ev cwd p root paths hasSpecific = true ↔
          (isPathSafe ev p root = true ∧
           (hasSpecific = true → isPathAllowed cwd p paths root = true) ∧
           isHiddenFileRequest p = false)) ∧
      (∀ (fileServer : String → HttpResponse) (p₁ p₂ : String),
        isRequestAllowed ev cwd p₁ root paths (!paths.isEmpty) = false →
        isRequestAllowed ev cwd p₂ root paths (!paths.isEmpty) = false →
        handleRequest ev cwd fileServer p₁ root paths =
          handleRequest ev cwd fileServer p₂ root paths ∧
        (handleRequest ev cwd fileServer p₁ root paths).status = 403 ∧
        (handleRequest ev cwd fileServer p₁ root paths).body = "Forbidden") := by
  intro ev cwd root paths
  constructor
  · intro p hasSpecific
    unfold isRequestAllowed
    cases hs : isPathSafe ev p root <;>
      cases hh : isHiddenFileRequest p <;>
        cases hasSpecific <;>
          cases ha : isPathAllowed cwd p paths root <;>
            simp [hs, hh, ha]
  · intro fileServer p₁ p₂ h1 h2
    unfold handleRequest
    rw [h1, h2]
    exact ⟨rfl, rfl, rfl⟩

/-- C4 witness: a traversal request and a hidden-file request, denied for
different reasons, receive the identical forbidden response. -/
theorem guard_order_and_uniform_denial_witness :
    handleRequest evalId "/share" (fun _ => HttpResponse.mk 200 "ok") "../x" "/share" [] =
      handleRequest evalId "/share" (fun _ => HttpResponse.mk 200 "ok") "/.git" "/share" [] ∧
    (handleRequest evalId "/share" (fun _ => HttpResponse.mk 200 "ok") "../x" "/share" []).status = 403 ∧
    (handleRequest evalId "/share" (fun _ => HttpResponse.mk 200 "ok") "../x" "/share" []).body = "Forbidden" :=
  (guard_order_and_uniform_denial evalId "/share" "/share" []).2
    (fun _ => HttpResponse.mk 200 "ok") "../x" "/.git" (by decide) (by decide)

/-- C2 counterexample: with auth configured, an oversized request without
credentials from a gzip-capable client is answered 401 by the chain the
code builds, while the order the claim states (body limiter outermost)
would answer 413; the two chains differ at this input, so the limiter does
not run before the other middleware. -/
theorem applyMiddleware_order_counterexample :
    (applyMiddleware mwFileHandler optWithAuth reqOversizedGzip).status = 401 ∧
    (specOrderChain mwFileHandler optWithAuth reqOversizedGzip).status = 413 ∧
    applyMiddleware mwFileHandler optWithAuth reqOversizedGzip ≠
      specOrderChain mwFileHandler optWithAuth reqOversizedGzip := by decide

/-- C2 amended: the chain runs, outermost to innermost at request time,
gzip compression, then the optional basic-authentication gate, then the
body-size limiter, then the responder.  An oversized body is still
rejected before the file responder does any work (the response never
depends on the inner handler), but only after gzip and authentication:
without auth and gzip the limiter's plain 413 is the answer, while with
auth configured and no credentials a gzip-capable client gets the
gzip-wrapped 401 even for an oversized body. -/
theorem applyMiddleware_order_amended :
    (∀ (opt : Options) (h₁ h₂ : MwHandler) (r : MwRequest),
        effMaxBody opt < r.contentLength →
        applyMiddleware h₁ opt r = applyMiddleware h₂ opt r) ∧
    (∀ (opt : Options) (h : MwHandler) (r : MwRequest),
        effMaxBody opt < r.contentLength →
        opt.authUser = "" → opt.authPass = "" → supportsGzip r = false →
        applyMiddleware h opt r = resp413) ∧
    (∀ (opt : Options) (h : MwHandler) (r : MwRequest),
        opt.authUser ≠ "" → r.hasBasicAuth = false → supportsGzip r = true →
        (applyMiddleware h opt r).status = 401 ∧
        (applyMiddleware h opt r).gzipEncoded = true) := by
  refine ⟨?_, ?_, ?_⟩
  · intro opt h₁ h₂ r hsize
    have hle : ¬ (r.contentLength ≤ effMaxBody opt) := not_le.mpr hsize
    have hlim : ∀ h : MwHandler, limitRequestBodySize (effMaxBody opt) h r = resp413 := by
      intro h
      simp [limitRequestBodySize, hle, resp413]
    unfold applyMiddleware
    by_cases hauth : opt.authUser ≠ "" ∨ opt.authPass ≠ ""
    · simp only [if_pos hauth, gzipMiddleware, basicAuthMiddleware]
      rw [hlim h₁, hlim h₂]
    · simp only [if_neg hauth, gzipMiddleware]
      rw [hlim h₁, hlim h₂]
  · intro opt h r hsize hu hp hg
    have hle : ¬ (r.contentLength ≤ effMaxBody opt) := not_le.mpr hsize
    unfold applyMiddleware
    have hauth : ¬ (opt.authUser ≠ "" ∨ opt.authPass ≠ "") := by
      simp [hu, hp]
    simp [if_neg hauth, gzipMiddleware, hg, limitRequestBodySize, hle, resp413]
  · intro opt h r hu hba hg
    unfold applyMiddleware
    have hauth : opt.authUser ≠ "" ∨ opt.authPass ≠ "" := Or.inl hu
    have hskip : ¬ (opt.authUser = "" ∧ opt.authPass = "") := fun hc => hu hc.1
    have hcred : ¬ (r.hasBasicAuth = true ∧ r.authUser = opt.authUser ∧
        r.authPass = opt.authPass) := by
      intro hc
      rw [hba] at hc
      exact Bool.false_ne_true hc.1
    simp [if_pos hauth, gzipMiddleware, hg, basicAuthMiddleware, hskip, hcred]

/-- C2 amended witness: at the concrete oversized request the chain's
answer is the same for two different inner handlers. -/
theorem applyMiddleware_order_amended_witness :
    applyMiddleware mwFileHandler optWithAuth reqOversizedGzip =
      applyMiddleware mwAltHandler optWithAuth reqOversizedGzip :=
  applyMiddleware_order_amended.1 optWithAuth mwFileHandler mwAltHandler
    reqOversizedGzip (by decide)

/-- An allow-list entry matches exactly when its absolutized form
relativizes against root and the request path equals it or extends it
across a path separator. -/
theorem entryMatches_iff (cwd root reqPath a : String) :
    entryMatches cwd root reqPath a = true ↔
      ∃ relPath, filepathRel root (filepathAbs cwd a) = some relPath ∧
        (reqPath = relPath ∨ strStartsWith reqPath (relPath ++ "/") = true) := by
  unfold entryMatches
  cases h : filepathRel root (filepathAbs cwd a) with
  | none => simp
  | some rp => simp [Bool.or_eq_true, decide_eq_true_eq]

/-- C5 counterexample: with allow-list entry docs and root /share, the
request /docs/readme.txt is denied when the process working directory is
/home, because the entry is made absolute against the working directory
and then relativizes to ../home/docs, which the request cannot match; the
claim's concrete example is therefore not a fact of the configuration
alone. -/
theorem isPathAllowed_docs_example_counterexample :
    isPathAllowed "/home" "/docs/readme.txt" ["docs"] "/share" = false ∧
    filepathRel "/share" (filepathAbs "/home" "docs") = some "../home/docs" := by decide

/-- C5 amended: isPathAllowed is always true on an empty allow-list and on
the root path; otherwise it is true exactly when the cleaned request path
with its leading slash stripped equals, or extends across a separator, the
relative-to-root form of some entry, where the entry is first made
absolute against the process working directory.  The claim's concrete
examples hold when the working directory is the root /share. -/
theorem isPathAllowed_characterization :
    (∀ (cwd p root : String), isPathAllowed cwd p [] root = true) ∧
    (∀ (cwd p root : String) (ps : List String),
        (filepathClean p = "/" ∨ filepathClean p = ".") →
        isPathAllowed cwd p ps root = true) ∧
    (∀ (cwd p root : String) (ps : List String),
        ¬ (filepathClean p = "/" ∨ filepathClean p = ".") →
        ps ≠ [] →
        (isPathAllowed cwd p ps root = true ↔
          ∃ a ∈ ps, ∃ relPath,
            filepathRel root (filepathAbs cwd a) = some relPath ∧
            (trimLeadingSlash (filepathClean p) = relPath ∨
             strStartsWith (trimLeadingSlash (filepathClean p)) (relPath ++ "/") = true))) ∧
    isPathAllowed "/share" "/docs/readme.txt" ["docs"] "/share" = true ∧
    isPathAllowed "/share" "/secrets/key" ["docs"] "/share" = false ∧
    isPathAllowed "/share" "/" ["docs"] "/share" = true := by
  refine ⟨?_, ?_, ?_, by decide, by decide, by decide⟩
  · intro cwd p root
    simp [isPathAllowed]
  · intro cwd p root ps hroot
    by_cases he : ps.isEmpty <;> simp [isPathAllowed, he, hroot]
  · intro cwd p root ps hroot hne
    have he : ps.isEmpty = false := by
      cases ps with
      | nil => exact absurd rfl hne
      | cons a t => rfl
    unfold isPathAllowed
    rw [he]
    simp only [Bool.false_eq_true, if_false, if_neg hroot, List.any_eq_true]
    constructor
    · rintro ⟨a, ha, hm⟩
      exact ⟨a, ha, (entryMatches_iff cwd root _ a).mp hm⟩
    · rintro ⟨a, ha, hm⟩
      exact ⟨a, ha, (entryMatches_iff cwd root _ a).mpr hm⟩

/-- C5 amended witness: the characterization applied at a concrete
configuration whose working directory is the root. -/
theorem isPathAllowed_characterization_witness :
    isPathAllowed "/share" "/docs/x" ["docs"] "/share" = true :=
  (isPathAllowed_characterization.2.2.1 "/share" "/docs/x" "/share" ["docs"]
      (by decide) (by decide)).mpr
    ⟨"docs", by decide, "docs", by decide, Or.inr (by decide)⟩

/-- C6 counterexample: the entry /a resolves outside the root /a/b (its
relative form is the parent marker) yet is not ignored: it makes the
request ../b/x allowed; and a relative entry is interpreted against the
process working directory, not the share root, so entry docs under root
/share with working directory /tmp fails to allow /docs/a.txt. -/
theorem allowList_outside_entry_counterexample :
    filepathRel "/a/b" (filepathAbs "/" "/a") = some ".." ∧
    isPathAllowed "/" "../b/x" ["/a"] "/a/b" = true ∧
    isPathAllowed "/tmp" "/docs/a.txt" ["docs"] "/share" = false := by decide

/-- C6 amended: allow-list entries are made absolute against the process
working directory, so a relative entry is interpreted relative to the
share root exactly when the working directory is the root (first two
conjuncts show the dependence); and an entry resolving outside the root is
not ignored but can only match request paths whose cleaned slash-stripped
form itself begins with the parent-directory marker, which the preceding
safety check rejects. -/
theorem allowList_entry_resolution_amended :
    isPathAllowed "/srv" "/docs/f" ["docs"] "/srv" = true ∧
    isPathAllowed "/other" "/docs/f" ["docs"] "/srv" = false ∧
    (∀ (cwd root e relPath p : String),
        filepathRel root (filepathAbs cwd e) = some relPath →
        strStartsWith relPath ".." = true →
        ¬ (filepathClean p = "/" ∨ filepathClean p = ".") →
        isPathAllowed cwd p [e] root = true →
        strStartsWith (trimLeadingSlash (filepathClean p)) ".." = true) := by
  refine ⟨by decide, by decide, ?_⟩
  intro cwd root e relPath p hrel hsw hroot hallow
  unfold isPathAllowed at hallow
  rw [if_neg hroot] at hallow
  simp only [List.isEmpty_cons, Bool.false_eq_true, if_false,
    List.any_cons, List.any_nil, Bool.or_false] at hallow
  rcases (entryMatches_iff cwd root _ e).mp hallow with ⟨rp, hrp, hor⟩
  rw [hrel] at hrp
  cases hrp
  rcases hor with heq | hswr
  · rw [heq]
    exact hsw
  · exact strStartsWith_trans ".." (relPath ++ "/") _
      (strStartsWith_append_right relPath ".." "/" hsw) hswr

/-- C6 amended witness: the outside entry /a under root /a/b matches only
the parent-marked request ../b/x, whose stripped clean form indeed begins
with the parent marker. -/
theorem allowList_entry_resolution_amended_witness :
    strStartsWith (trimLeadingSlash (filepathClean "../b/x")) ".." = true :=
  allowList_entry_resolution_amended.2.2 "/" "/a/b" "/a" ".." "../b/x"
    (by decide) (by decide) (by decide) (by decide)

/-- After saveCertificates, the three paths hold the server certificate,
the CA certificate, and the server private key, provided the key path is
distinct from both certificate paths and the certificate paths differ. -/
theorem saveCertificates_spec (d : certificateData) (cp kp cacp : String) (fs : FS)
    (hkc : kp ≠ cp) (hkca : kp ≠ cacp) (hcc : cp ≠ cacp) :
    (saveCertificates d cp kp cacp fs) cp =
      some ⟨"CERTIFICATE", PemData.cert d.serverCertDER, 0o644⟩ ∧
    (saveCertificates d cp kp cacp fs) cacp =
      some ⟨"CERTIFICATE", PemData.cert d.caCertDER, 0o644⟩ ∧
    (saveCertificates d cp kp cacp fs) kp =
      some ⟨"RSA PRIVATE KEY", PemData.rsaKey d.serverKey, 0o600⟩ := by
  unfold saveCertificates writePem
  refine ⟨?_, ?_, ?_⟩
  · rw [if_neg (Ne.symm hkc), if_pos rfl]
  · rw [if_neg (Ne.symm hkca), if_neg (Ne.symm hcc), if_pos rfl]
  · rw [if_pos rfl]

/-- C8: with force unset and both certificate files on disk, Generate is a
no-op returning success; a second force-unset run after any first run
leaves the filesystem and entropy counter unchanged, so the certificate
bytes are identical; with force set Generate always draws two fresh keys,
rewrites all three files, and (for an injective entropy stream) a repeated
forced run leaves different key material on disk. -/
theorem Generate_skip_and_force :
    ∀ (gen : Nat → RSAKey) (now : Int) (cp kp cacp : String) (fs : FS) (ctr : Nat),
      kp ≠ cp → kp ≠ cacp → cp ≠ cacp →
      ((fs cp).isSome = true → (fs cacp).isSome = true →
        Generate gen now cp kp cacp false fs ctr = (fs, ctr)) ∧
      (∀ force₀ : Bool,
        Generate gen now cp kp cacp false
            (Generate gen now cp kp cacp force₀ fs ctr).1
            (Generate gen now cp kp cacp force₀ fs ctr).2 =
          Generate gen now cp kp cacp force₀ fs ctr) ∧
      ((Generate gen now cp kp cacp true fs ctr).1 cp =
          some ⟨"CERTIFICATE", PemData.cert (createCertificateData gen now ctr).serverCertDER, 0o644⟩ ∧
       (Generate gen now cp kp cacp true fs ctr).1 cacp =
          some ⟨"CERTIFICATE", PemData.cert (createCertificateData gen now ctr).caCertDER, 0o644⟩ ∧
       (Generate gen now cp kp cacp true fs ctr).1 kp =
          some ⟨"RSA PRIVATE KEY", PemData.rsaKey (gen (ctr + 1)), 0o600⟩ ∧
       (Generate gen now cp kp cacp true fs ctr).2 = ctr + 2) ∧
      (Function.Injective gen →
        (Generate gen now cp kp cacp true
            (Generate gen now cp kp cacp true fs ctr).1
            (Generate gen now cp kp cacp true fs ctr).2).1 kp ≠
          (Generate gen now cp kp cacp true fs ctr).1 kp) := by
  intro gen now cp kp cacp fs ctr hkc hkca hcc
  have hsaveAll : ∀ (fs' : FS) (c : Nat),
      Generate gen now cp kp cacp true fs' c =
        (saveCertificates (createCertificateData gen now c) cp kp cacp fs', c + 2) := by
    intro fs' c
    have hf : shouldSkipGeneration true cp cacp fs' = false := rfl
    simp [Generate, hf, generateAndSaveCertificates]
  refine ⟨?_, ?_, ?_, ?_⟩
  · intro h1 h2
    have hskip : shouldSkipGeneration false cp cacp fs = true := by
      simp [shouldSkipGeneration, checkCertificateExists, h1, h2]
    simp [Generate, hskip]
  · intro force₀
    by_cases hsk : shouldSkipGeneration force₀ cp cacp fs = true
    · have hfst : Generate gen now cp kp cacp force₀ fs ctr = (fs, ctr) := by
        simp [Generate, hsk]
      rw [hfst]
      unfold shouldSkipGeneration at hsk
      rw [Bool.and_eq_true, Bool.and_eq_true] at hsk
      have he1 := hsk.1.2
      have he2 := hsk.2
      have hskip2 : shouldSkipGeneration false cp cacp fs = true := by
        unfold shouldSkipGeneration
        simp [he1, he2]
      simp [Generate, hskip2]
    · have hfst : Generate gen now cp kp cacp force₀ fs ctr =
          (saveCertificates (createCertificateData gen now ctr) cp kp cacp fs, ctr + 2) := by
        simp [Generate, hsk, generateAndSaveCertificates]
      rw [hfst]
      rcases saveCertificates_spec (createCertificateData gen now ctr) cp kp cacp fs hkc hkca hcc
        with ⟨hc, hca, hkf⟩
      have hskip2 : shouldSkipGeneration false cp cacp
          (saveCertificates (createCertificateData gen now ctr) cp kp cacp fs) = true := by
        simp [shouldSkipGeneration, checkCertificateExists, hc, hca]
      simp [Generate, hskip2]
  · rw [hsaveAll fs ctr]
    rcases saveCertificates_spec (createCertificateData gen now ctr) cp kp cacp fs hkc hkca hcc
      with ⟨hc, hca, hkf⟩
    exact ⟨hc, hca, hkf, rfl⟩
  · intro hinj
    rw [hsaveAll fs ctr]
    rw [hsaveAll (saveCertificates (createCertificateData gen now ctr) cp kp cacp fs) (ctr + 2)]
    rcases saveCertificates_spec (createCertificateData gen now ctr) cp kp cacp fs hkc hkca hcc
      with ⟨h1a, h1b, hk1⟩
    rcases saveCertificates_spec (createCertificateData gen now (ctr + 2)) cp kp cacp
      (saveCertificates (createCertificateData gen now ctr) cp kp cacp fs) hkc hkca hcc
      with ⟨h2a, h2b, hk2⟩
    intro heq
    have heq' : saveCertificates (createCertificateData gen now (ctr + 2)) cp kp cacp
        (saveCertificates (createCertificateData gen now ctr) cp kp cacp fs) kp =
        saveCertificates (createCertificateData gen now ctr) cp kp cacp fs kp := heq
    rw [hk1, hk2] at heq'
    simp only [Option.some.injEq, PemFile.mk.injEq, PemData.rsaKey.injEq, true_and, and_true]
      at heq'
    have h2 : gen (ctr + 2 + 1) = gen (ctr + 1) := heq'
    have := hinj h2
    omega

/-- C8 witness: with distinct concrete paths, an injective entropy stream
and an empty disk, the second force-unset run after a forced first run
changes nothing. -/
theorem Generate_skip_and_force_witness :
    Generate RSAKey.mk 0 "cert.pem" "key.pem" "ca.crt" false
        (Generate RSAKey.mk 0 "cert.pem" "key.pem" "ca.crt" true (fun _ => none) 0).1
        (Generate RSAKey.mk 0 "cert.pem" "key.pem" "ca.crt" true (fun _ => none) 0).2 =
      Generate RSAKey.mk 0 "cert.pem" "key.pem" "ca.crt" true (fun _ => none) 0 :=
  (Generate_skip_and_force RSAKey.mk 0 "cert.pem" "key.pem" "ca.crt" (fun _ => none) 0
    (by decide) (by decide) (by decide)).2.1 true

/-- C9: every run of the certificate creation step yields a leaf whose
issuer is the CA subject Local HTTPS CA, signed by the CA key so that it
verifies against the CA certificate of the same run, with subject
alternative names covering localhost, 127.0.0.1 and the IPv6 loopback. -/
theorem generate_leaf_chain_and_sans :
    ∀ (gen : Nat → RSAKey) (now : Int) (ctr : Nat),
      (createCertificateData gen now ctr).serverCertDER.issuerCommonName =
        (createCertificateData gen now ctr).caCertDER.subjectCommonName ∧
      (createCertificateData gen now ctr).caCertDER.subjectCommonName = "Local HTTPS CA" ∧
      (createCertificateData gen now ctr).caCertDER.isCA = true ∧
      (createCertificateData gen now ctr).serverCertDER.signedByPub =
        RSAKey.pub (createCertificateData gen now ctr).caKey ∧
      VerifiesAgainst (createCertificateData gen now ctr).serverCertDER
        (createCertificateData gen now ctr).caCertDER ∧
      "localhost" ∈ (createCertificateData gen now ctr).serverCertDER.dnsNames ∧
      "127.0.0.1" ∈ (createCertificateData gen now ctr).serverCertDER.dnsNames ∧
      "127.0.0.1" ∈ (createCertificateData gen now ctr).serverCertDER.ipAddresses ∧
      "::1" ∈ (createCertificateData gen now ctr).serverCertDER.ipAddresses := by
  intro gen now ctr
  refine ⟨rfl, rfl, rfl, rfl, ⟨rfl, rfl, rfl, rfl⟩, ?_, ?_, ?_, ?_⟩ <;>
    simp [createCertificateData, generateServerCertificate, createCertificate,
      createServerCertificateTemplate]

/-- C10: when both certificate files exist the force-unset Generate run
skips without consulting the key path, writing nothing and succeeding even
though no private key is on disk; the missing key is only reported by the
preflight check of the server. -/
theorem shouldSkip_ignores_missing_key :
    ∀ (gen : Nat → RSAKey) (now : Int) (cp kp cacp : String) (fs : FS) (ctr : Nat),
      (fs cp).isSome = true → (fs cacp).isSome = true → fs kp = none →
      Generate gen now cp kp cacp false fs ctr = (fs, ctr) ∧
      (Generate gen now cp kp cacp false fs ctr).1 kp = none ∧
      checkCertificateFiles cp kp fs = some (PreflightError.missingKey kp) := by
  intro gen now cp kp cacp fs ctr h1 h2 hk
  have hskip : shouldSkipGeneration false cp cacp fs = true := by
    simp [shouldSkipGeneration, checkCertificateExists, h1, h2]
  have hgen : Generate gen now cp kp cacp false fs ctr = (fs, ctr) := by
    simp [Generate, hskip]
  refine ⟨hgen, ?_, ?_⟩
  · rw [hgen]
    exact hk
  · have h1' : (fs cp).isNone = false := by
      cases hc : fs cp with
      | none => rw [hc] at h1; simp at h1
      | some v => rfl
    simp [checkCertificateFiles, h1', hk]

/-- C10 witness: on the concrete certificates-only disk the skip happens
and preflight reports the missing key. -/
theorem shouldSkip_ignores_missing_key_witness :
    Generate RSAKey.mk 0 "cert.pem" "key.pem" "ca.crt" false fsCertsOnly 0 =
      (fsCertsOnly, 0) ∧
    (Generate RSAKey.mk 0 "cert.pem" "key.pem" "ca.crt" false fsCertsOnly 0).1 "key.pem" = none ∧
    checkCertificateFiles "cert.pem" "key.pem" fsCertsOnly =
      some (PreflightError.missingKey "key.pem") :=
  shouldSkip_ignores_missing_key RSAKey.mk 0 "cert.pem" "key.pem" "ca.crt" fsCertsOnly 0
    (by decide) (by decide) (by decide)
